import Mathlib

/-!
Verification development for the undermoon server proxy core.

This file gives a shallow embedding, in Lean 4, of the parts of the
repository needed for the stated properties:

* `src/common/db.rs` — `HostDBMap` parsing and serialization of the
  `SETDB` argument grammar.
* `src/migration/delete_keys.rs` — `SlotRangeArray`, the
  `scan_and_delete_keys` batch step, `parse_scan`, and the rate-limit
  interval computed in `DeleteKeysTask::gen_future`.
* `src/proxy/manager.rs` — `MetaManager::set_meta`,
  `MetaManager::handle_switch` and `MetaManager::try_select_db`.
* `src/replication/redis_replicator.rs` — the start/stop lifecycle of
  `RedisReplicaReplicator`.

Rust machine integers are modelled as `Nat` (all involved quantities are
unsigned and no wrapping arithmetic occurs on the relevant paths; the one
partial operation, division by zero, is made explicit with `Option`).
Byte strings are modelled as `List Nat`.  Stateful methods are modelled
by explicit state passing.  Code of the repository that is not under
`src/` (for example `common/utils.rs` and the `protocol` crate) is
modelled from the specification where a property needs it; each such
definition carries a doc comment saying so.
-/

/-! ## Common cluster types

These mirror the API of `common/cluster.rs` as consumed by
`common/db.rs` and `migration/delete_keys.rs`, where the slot-range tag
payload is a plain peer address string. -/

/-- Tag of a slot range as used by `common/db.rs`: `None`, or
`Migrating`/`Importing` carrying a peer address string. -/
inductive SlotRangeTag where
  | None : SlotRangeTag
  | Migrating (dst : String) : SlotRangeTag
  | Importing (src : String) : SlotRangeTag
deriving Repr, DecidableEq

/-- Inclusive slot range with a tag, mirroring `common::cluster::SlotRange`
(the field `end` is a Lean keyword, hence the guillemets). -/
structure SlotRange where
  start : Nat
  «end» : Nat
  tag : SlotRangeTag
deriving Repr, DecidableEq

/-- Flags of a `SETDB` command body, mirroring `DBMapFlags` in
`common/db.rs`. -/
structure DBMapFlags where
  force : Bool
deriving Repr, DecidableEq

/-- Models `str::split(sep)` on a character separator as a pure function
on character lists (the standard library's `String.splitOn` is not
reducible by the kernel): splitting yields the (possibly empty) segments
between separator occurrences, with the Rust semantics that the empty
string splits to one empty segment. -/
def splitOnChar (sep : Char) : List Char → List (List Char)
  | [] => [[]]
  | x :: xs =>
    match splitOnChar sep xs with
    | [] => [[]]
    | cur :: rest => if x = sep then [] :: cur :: rest else (x :: cur) :: rest

/-- Models `str::to_uppercase` as ASCII uppercasing of the characters.
(Rust uppercases per Unicode; the two agree on the ASCII tag tokens this
code compares against.) -/
def strToUpper (s : String) : String :=
  String.mk (s.data.map Char.toUpper)

/-- Models `str::parse::<u64>` on a character list: a non-empty all-digit
decimal token parses to its value, anything else is rejected.  (Rust
would additionally accept a leading plus sign and reject values above
`u64::MAX`; neither shape occurs in the canonical token forms the
round-trip property quantifies over.) -/
def parseU64Chars (cs : List Char) : Option Nat :=
  if cs ≠ [] ∧ cs.all Char.isDigit then
    some (cs.foldl (fun n c => n * 10 + (c.toNat - 48)) 0)
  else
    none

/-- Models `str::parse::<u64>` as used in `common/db.rs` on the epoch and
slot tokens. -/
def parseU64 (s : String) : Option Nat :=
  parseU64Chars s.data

/-- Models `has_flags(flags_str, ',', "FORCE")` from `common/utils.rs`
(not under `src/`).  Modelled from the spec and the unit tests in
`common/db.rs` (the test passes `"force"` and expects `force = true`):
the flag string is split on commas and matched case-insensitively. -/
def has_flags (flags_str : String) (flag : String) : Bool :=
  (splitOnChar ',' flags_str.data).any (fun seg => strToUpper (String.mk seg) == flag)

/-- Mirrors `DBMapFlags::from_arg`. -/
def DBMapFlags.from_arg (flags_str : String) : DBMapFlags :=
  { force := has_flags flags_str "FORCE" }

/-! ## `HostDBMap` (`common/db.rs`)

The Rust `db_map` field is a `HashMap<String, HashMap<String, Vec<SlotRange>>>`.
We model both hash maps as association lists with the
`entry(..).or_insert_with(..)` semantics of the source: lookup by key; a
missing key is appended at the end.  Serialization properties are stated
up to multiset (`List.Perm`), exactly because a hash map does not promise
an iteration order. -/

/-- Association-list model of `HashMap<String, HashMap<String, Vec<SlotRange>>>`. -/
abbrev DbMap := List (String × List (String × List SlotRange))

/-- One parsed `SETDB` entry: cluster name, backend address, slot range. -/
abbrev DbEntry := String × String × SlotRange

/-- Mirrors `nodes.entry(address).or_insert_with(Vec::new).push(slot_range)`
on the inner map. -/
def insertNode : List (String × List SlotRange) → String → SlotRange →
    List (String × List SlotRange)
  | [], addr, sr => [(addr, [sr])]
  | (a, rs) :: rest, addr, sr =>
    if a = addr then (a, rs ++ [sr]) :: rest
    else (a, rs) :: insertNode rest addr sr

/-- Mirrors `db_map.entry(dbname).or_insert_with(HashMap::new)` followed by
the inner insertion. -/
def insertDb : DbMap → String → String → SlotRange → DbMap
  | [], db, addr, sr => [(db, [(addr, [sr])])]
  | (d, ns) :: rest, db, addr, sr =>
    if d = db then (d, insertNode ns addr sr) :: rest
    else (d, ns) :: insertDb rest db addr sr

/-- Mirrors `HostDBMap` from `common/db.rs`. -/
structure HostDBMap where
  epoch : Nat
  flags : DBMapFlags
  db_map : DbMap
deriving Repr, DecidableEq

/-- Mirrors `HostDBMap::parse_slot_range`: split the token on hyphens and
parse the first two segments as `usize` (extra segments are ignored, as in
the source, which only calls `next()` twice on the split iterator). -/
def HostDBMap.parse_slot_range (s : String) : Option SlotRange :=
  match splitOnChar '-' s.data with
  | start_str :: end_str :: _ =>
    match parseU64Chars start_str, parseU64Chars end_str with
    | some start, some e => some { start := start, «end» := e, tag := SlotRangeTag.None }
    | _, _ => none
  | _ => none

/-- Mirrors `HostDBMap::parse_tagged_slot_range`, consuming tokens from the
front of the list and returning the rest: a token that uppercases to
`MIGRATING` or `IMPORTING` is followed by the peer address and the range
token; otherwise the first token is the range itself. -/
def HostDBMap.parse_tagged_slot_range : List String → Option (SlotRange × List String)
  | [] => none
  | sr_token :: rest =>
    if strToUpper sr_token = "MIGRATING" then
      match rest with
      | dst :: range_token :: rest2 =>
        match HostDBMap.parse_slot_range range_token with
        | some sr => some ({ sr with tag := SlotRangeTag.Migrating dst }, rest2)
        | none => none
      | _ => none
    else if strToUpper sr_token = "IMPORTING" then
      match rest with
      | src :: range_token :: rest2 =>
        match HostDBMap.parse_slot_range range_token with
        | some sr => some ({ sr with tag := SlotRangeTag.Importing src }, rest2)
        | none => none
      | _ => none
    else
      match HostDBMap.parse_slot_range sr_token with
      | some sr => some (sr, rest)
      | none => none

/-- Mirrors `HostDBMap::parse_db`: one entry is a cluster name, a backend
address and a tagged slot range. -/
def HostDBMap.parse_db : List String → Option (DbEntry × List String)
  | dbname :: addr :: rest =>
    match HostDBMap.parse_tagged_slot_range rest with
    | some (sr, rest2) => some ((dbname, addr, sr), rest2)
    | none => none
  | _ => none

/-- Mirrors the `while let Some(_) = it.peek()` loop in `HostDBMap::parse`,
accumulating the map with `insertDb`.  The grammar of `parse_db` is
inlined here so that the recursion is structural (each entry consumes the
tokens matched by the patterns); `parseLoop_step` below proves that each
iteration agrees with `HostDBMap.parse_db`. -/
def HostDBMap.parseLoop (m : DbMap) : List String → Option DbMap
  | [] => some m
  | dbname :: addr :: sr_token :: rest =>
    if strToUpper sr_token = "MIGRATING" then
      match rest with
      | dst :: range_token :: rest2 =>
        match HostDBMap.parse_slot_range range_token with
        | some sr =>
          HostDBMap.parseLoop (insertDb m dbname addr { sr with tag := SlotRangeTag.Migrating dst }) rest2
        | none => none
      | _ => none
    else if strToUpper sr_token = "IMPORTING" then
      match rest with
      | src :: range_token :: rest2 =>
        match HostDBMap.parse_slot_range range_token with
        | some sr =>
          HostDBMap.parseLoop (insertDb m dbname addr { sr with tag := SlotRangeTag.Importing src }) rest2
        | none => none
      | _ => none
    else
      match HostDBMap.parse_slot_range sr_token with
      | some sr => HostDBMap.parseLoop (insertDb m dbname addr sr) rest
      | none => none
  | _ => none

/-- Specification-side companion of `HostDBMap.parseLoop`: the flat list of
entries parsed from the token list, in order, before any grouping into the
nested map.  Same grammar, same token consumption. -/
def HostDBMap.parseEntries : List String → Option (List DbEntry)
  | [] => some []
  | dbname :: addr :: sr_token :: rest =>
    if strToUpper sr_token = "MIGRATING" then
      match rest with
      | dst :: range_token :: rest2 =>
        match HostDBMap.parse_slot_range range_token with
        | some sr =>
          (HostDBMap.parseEntries rest2).map
            (fun es => (dbname, addr, { sr with tag := SlotRangeTag.Migrating dst }) :: es)
        | none => none
      | _ => none
    else if strToUpper sr_token = "IMPORTING" then
      match rest with
      | src :: range_token :: rest2 =>
        match HostDBMap.parse_slot_range range_token with
        | some sr =>
          (HostDBMap.parseEntries rest2).map
            (fun es => (dbname, addr, { sr with tag := SlotRangeTag.Importing src }) :: es)
        | none => none
      | _ => none
    else
      match HostDBMap.parse_slot_range sr_token with
      | some sr =>
        (HostDBMap.parseEntries rest).map (fun es => (dbname, addr, sr) :: es)
      | none => none
  | _ => none

/-- Mirrors `HostDBMap::parse`: epoch token, flags token, then the entry
loop starting from an empty map. -/
def HostDBMap.parse : List String → Option HostDBMap
  | epoch_str :: flags_str :: rest =>
    match parseU64 epoch_str with
    | some epoch =>
      (HostDBMap.parseLoop [] rest).map
        (fun m => { epoch := epoch, flags := DBMapFlags.from_arg flags_str, db_map := m })
    | none => none
  | _ => none

/-- Tokens emitted for one slot range by `HostDBMap::db_map_to_args`
(after the cluster name and node address): the lowercase tag tokens, then
the `start-end` range token. -/
def slotRangeArgs (sr : SlotRange) : List String :=
  (match sr.tag with
   | SlotRangeTag.Migrating dst => ["migrating", dst]
   | SlotRangeTag.Importing src => ["importing", src]
   | SlotRangeTag.None => []) ++ [Nat.repr sr.start ++ "-" ++ Nat.repr sr.«end»]

/-- Worker of `HostDBMap::db_map_to_args` on the map model: for every
cluster, node and slot range, push the cluster name, the node address,
the tag tokens and the range token. -/
def dbMapToArgsList (m : DbMap) : List String :=
  m.flatMap (fun p =>
    p.2.flatMap (fun q =>
      q.2.flatMap (fun sr => p.1 :: q.1 :: slotRangeArgs sr)))

/-- Mirrors `HostDBMap::db_map_to_args` (reads the `db_map` field of
`self`). -/
def HostDBMap.db_map_to_args (h : HostDBMap) : List String :=
  dbMapToArgsList h.db_map

/-- Canonical token rendering of one entry: exactly the tokens
`db_map_to_args` would emit for it. -/
def entryTokens (e : DbEntry) : List String :=
  e.1 :: e.2.1 :: slotRangeArgs e.2.2

/-- Flat list of (`d`, node, slot range) triples stored under cluster name
`d` in the inner map, in iteration order. -/
def nodeTriples (d : String) (ns : List (String × List SlotRange)) : List DbEntry :=
  ns.flatMap (fun q => q.2.map (fun sr => (d, q.1, sr)))

/-- Flat list of (cluster, node, slot range) triples stored in a map
model, in iteration order. -/
def dbTriples (m : DbMap) : List DbEntry :=
  m.flatMap (fun p => nodeTriples p.1 p.2)

/-- Grouping of a flat entry list into the nested map by repeated
insertion, as the parse loop does. -/
def buildDbMap (entries : List DbEntry) : DbMap :=
  entries.foldl (fun acc e => insertDb acc e.1 e.2.1 e.2.2) []

/-! ## Key slots (`common/utils.rs`, modelled from the spec)

`get_slot` lives in `common/utils.rs`, which is not under `src/`.
Modelled from the spec: CRC16 (the XMODEM variant used by Redis Cluster,
polynomial 0x1021, initial value 0) over the hash-tag section of the key,
modulo 16384. -/

/-- Bytes of a binary-safe string. -/
abbrev Bytes := List Nat

/-- Modelled from the spec: one shift step of CRC16-XMODEM, truncated to
16 bits. -/
def crc16_step (crc : Nat) : Nat :=
  if crc &&& 0x8000 ≠ 0 then ((crc <<< 1) ^^^ 0x1021) % 65536
  else (crc <<< 1) % 65536

/-- Modelled from the spec: CRC16-XMODEM of a byte string (fold the byte
into the high half, then eight shift steps). -/
def crc16 (bytes : Bytes) : Nat :=
  bytes.foldl (fun crc b => crc16_step^[8] (crc ^^^ ((b % 256) <<< 8))) 0

/-- Modelled from the spec: the hash-tag section of a key — the substring
between the first `\x7b` and the next `\x7d` when non-empty, else the
whole key. -/
def hash_tag (key : Bytes) : Bytes :=
  match key.dropWhile (fun b => b != 123) with
  | [] => key
  | _ :: after =>
    let inner := after.takeWhile (fun b => b != 125)
    if after.contains 125 && !inner.isEmpty then inner else key

/-- Modelled from the spec: `get_slot(key)` is CRC16 of the hash-tag
section modulo 16384. -/
def get_slot (key : Bytes) : Nat :=
  crc16 (hash_tag key) % 16384

/-! ## `DeleteKeysTask` (`migration/delete_keys.rs`) -/

/-- Mirrors `SlotRangeArray` from `migration/delete_keys.rs`: the retained
ranges as `(start, end)` pairs. -/
structure SlotRangeArray where
  ranges : List (Nat × Nat)
deriving Repr, DecidableEq

/-- Mirrors `SlotRangeArray::is_key_inside`: the key's slot lies inside
some retained range. -/
def SlotRangeArray.is_key_inside (a : SlotRangeArray) (key : Bytes) : Bool :=
  let slot := get_slot key
  a.ranges.any (fun r => decide (r.1 ≤ slot) && decide (slot ≤ r.2))

/-- Model of the `protocol` crate's `BulkStr` (the crate is not under
`src/`; constructors from its use sites). -/
inductive BulkStr where
  | Str (s : Bytes) : BulkStr
  | Nil : BulkStr

/-- Model of the `protocol` crate's `Resp` values.  `Resp::Arr(Array::Arr(v))`
is `Resp.Arr v` and `Resp::Arr(Array::Nil)` is `Resp.NilArr`. -/
inductive Resp where
  | Error (s : Bytes) : Resp
  | Simple (s : Bytes) : Resp
  | Integer (s : Bytes) : Resp
  | Bulk (b : BulkStr) : Resp
  | Arr (resps : List Resp) : Resp
  | NilArr : Resp

/-- States whether a reply is an error reply. -/
def Resp.isError : Resp → Bool
  | Resp.Error _ => true
  | _ => false

/-- Mirrors the `ScanResponse` struct of `migration/delete_keys.rs`. -/
structure ScanResponse where
  next_index : Nat
  keys : List Bytes
deriving Repr, DecidableEq

/-- Models `get_resp_bytes` from `common/utils.rs` (not under `src/`).
Modelled from its use in `parse_scan`: the byte strings of an array reply
whose elements are bulk strings. -/
def get_resp_bytes : Resp → Option (List Bytes)
  | Resp.Arr resps =>
    resps.mapM (fun r =>
      match r with
      | Resp.Bulk (BulkStr.Str s) => some s
      | _ => none)
  | _ => none

/-- Models `str::from_utf8` followed by `parse::<u64>` on the cursor bytes
in `parse_scan`: a non-empty ASCII-digit byte string parses to its decimal
value. -/
def parseU64Bytes (s : Bytes) : Option Nat :=
  if s ≠ [] ∧ s.all (fun b => decide (48 ≤ b) && decide (b ≤ 57)) then
    some (s.foldl (fun n b => n * 10 + (b - 48)) 0)
  else
    none

/-- Mirrors `parse_scan` from `migration/delete_keys.rs`: the first array
element (bulk or simple string) is the next cursor, the second is the key
list. -/
def parse_scan : Resp → Option ScanResponse
  | Resp.Arr resps => do
    let first ← resps.get? 0
    let index_data ←
      match first with
      | Resp.Bulk (BulkStr.Str s) => some s
      | Resp.Simple s => some s
      | _ => none
    let next_index ← parseU64Bytes index_data
    let second ← resps.get? 1
    let keys ← get_resp_bytes second
    some { next_index := next_index, keys := keys }
  | _ => none

/-- Errors of the `protocol` crate's client as used by
`scan_and_delete_keys` (`Done` signals normal completion of the scan). -/
inductive RedisClientError where
  | InvalidReply : RedisClientError
  | Done : RedisClientError
  | Canceled : RedisClientError
deriving Repr, DecidableEq

/-- Observable effects and outcome of one `scan_and_delete_keys` batch:
the SCAN command issued, the DEL command issued (if any), and either the
threaded state for the next batch or the terminating error. -/
structure StepOut where
  scanCmd : List String
  delCmd : Option (List Bytes)
  result : Except RedisClientError (SlotRangeArray × Nat)

/-- Mirrors `DeleteKeysTask::scan_and_delete_keys` for one batch, given the
backend's reply to the SCAN command and (when a DEL is issued) to the DEL
command: issue `SCAN <cursor>`, parse the reply, filter the keys to those
not inside the retained ranges, delete them with a single DEL when any
remain, then end with `Done` when the returned cursor is 0 or thread the
returned cursor to the next batch. -/
def scan_and_delete_keys (slot_ranges : SlotRangeArray) (index : Nat)
    (scan_reply : Resp) (del_reply : Resp) : StepOut :=
  let scan_cmd := ["SCAN", Nat.repr index]
  match parse_scan scan_reply with
  | none => { scanCmd := scan_cmd, delCmd := none
              result := Except.error RedisClientError.InvalidReply }
  | some scan =>
    let keys := scan.keys.filter (fun k => ! slot_ranges.is_key_inside k)
    if keys.isEmpty then
      { scanCmd := scan_cmd, delCmd := none
        result :=
          if scan.next_index = 0 then Except.error RedisClientError.Done
          else Except.ok (slot_ranges, scan.next_index) }
    else
      let del_cmd := [68, 69, 76] :: keys
      match del_reply with
      | Resp.Error _ =>
        { scanCmd := scan_cmd, delCmd := some del_cmd
          result := Except.error RedisClientError.InvalidReply }
      | _ =>
        { scanCmd := scan_cmd, delCmd := some del_cmd
          result :=
            if scan.next_index = 0 then Except.error RedisClientError.Done
            else Except.ok (slot_ranges, scan.next_index) }

/-- Modelled from the spec: `keep_connecting_and_sending`
(`common/resp_execution.rs`, not under `src/`) repeatedly applies the
batch function, threading its state, until the function returns an error
(`Done` on a zero cursor, or a reply error).  Each list element supplies
the backend's replies for one batch; the run records every batch's
observable output and stops at the first terminating batch. -/
def run_delete_keys_loop (slot_ranges : SlotRangeArray) (index : Nat) :
    List (Resp × Resp) → List StepOut
  | [] => []
  | (sr, dr) :: rest =>
    let out := scan_and_delete_keys slot_ranges index sr dr
    match out.result with
    | Except.error _ => [out]
    | Except.ok (ranges2, next) => out :: run_delete_keys_loop ranges2 next rest

/-- Mirrors `let data = (slot_ranges, 0)` in `DeleteKeysTask::gen_future`:
the scan loop starts from cursor 0. -/
def DeleteKeysTask.run (slot_ranges : SlotRangeArray) (replies : List (Resp × Resp)) :
    List StepOut :=
  run_delete_keys_loop slot_ranges 0 replies

/-- Mirrors `SCAN_DEFAULT_SIZE` in `DeleteKeysTask::gen_future`. -/
def SCAN_DEFAULT_SIZE : Nat := 10

/-- Models Rust unsigned integer division, which panics on a zero
divisor: the result is `none` exactly when the divisor is zero. -/
def checked_div (a b : Nat) : Option Nat :=
  if b = 0 then none else some (a / b)

/-- Mirrors the batch interval computed in `DeleteKeysTask::gen_future`
(in nanoseconds): `1_000_000_000 / (delete_rate / SCAN_DEFAULT_SIZE)`,
both divisions in integer arithmetic. -/
def gen_future_interval (delete_rate : Nat) : Option Nat :=
  checked_div 1000000000 (delete_rate / SCAN_DEFAULT_SIZE)

/-! ## `MetaManager` (`proxy/manager.rs`)

This file is from a newer era of the crate: here the slot-range tag
payload is a full `MigrationMeta` carrying an epoch.  The parts of the
manager built by collaborator modules that are not under `src/`
(`ClusterBackendMap`, `MigrationMap`, the task maps) are abstracted: the
snapshot is an arbitrary type and the snapshot builder and the migration
map's switch handler are function parameters, so the theorems hold for
every implementation of those collaborators. -/

/-- Modelled from the spec data model: `MigrationMeta` carries the epoch
and the four addresses of a migration (`common/cluster.rs` is not under
`src/`). -/
structure MigrationMeta where
  epoch : Nat
  src_proxy_address : String
  src_node_address : String
  dst_proxy_address : String
  dst_node_address : String
deriving Repr, DecidableEq

namespace Proxy

/-- Slot-range tag of the manager era: the payload is a `MigrationMeta`. -/
inductive SlotRangeTag where
  | None : SlotRangeTag
  | Migrating (meta : MigrationMeta) : SlotRangeTag
  | Importing (meta : MigrationMeta) : SlotRangeTag
deriving Repr, DecidableEq

/-- Slot range of the manager era. -/
structure SlotRange where
  start : Nat
  «end» : Nat
  tag : SlotRangeTag
deriving Repr, DecidableEq

/-- Mirrors `MigrationTaskMeta`: the cluster name and the tagged slot
range identifying one migration task. -/
structure MigrationTaskMeta where
  db_name : String
  slot_range : SlotRange
deriving Repr, DecidableEq

/-- Mirrors `SwitchArg` from `migration/task.rs`. -/
structure SwitchArg where
  version : String
  meta : MigrationTaskMeta
deriving Repr, DecidableEq

/-- Modelled from the spec: the `UMCTL TMPSWITCH` subcommand is `PRE` or
`COMMIT` (`migration/task.rs` is not under `src/`). -/
inductive MgrSubCmd where
  | Pre : MgrSubCmd
  | Commit : MgrSubCmd
deriving Repr, DecidableEq

/-- Switch errors named by the spec (`migration/manager.rs` is not under
`src/`; only the constructors used by `proxy/manager.rs` and the spec are
modelled). -/
inductive SwitchError where
  | InvalidArg : SwitchError
  | NotReady : SwitchError
  | InvalidCmd : SwitchError
  | TaskNotFound : SwitchError
deriving Repr, DecidableEq

end Proxy

/-- Mirrors `MetaManager::handle_switch`.  The migration map's
`handle_switch` is a function parameter (its implementation is not under
`src/`).  The stored task meta carries an importing tag, so a migrating
tag is rewritten to an importing tag with the same meta; then the switch
is rejected with `NotReady` when the manager's epoch is behind the
argument's epoch, and otherwise delegated. -/
def MetaManager.handle_switch
    (migration_map_handle_switch : Proxy.SwitchArg → Proxy.MgrSubCmd → Except Proxy.SwitchError Unit)
    (current_epoch : Nat) (switch_arg : Proxy.SwitchArg) (sub_cmd : Proxy.MgrSubCmd) :
    Except Proxy.SwitchError Unit :=
  match switch_arg.meta.slot_range.tag with
  | Proxy.SlotRangeTag.None => Except.error Proxy.SwitchError.InvalidArg
  | Proxy.SlotRangeTag.Migrating meta =>
    let task_meta : Proxy.MigrationTaskMeta :=
      { switch_arg.meta with
        slot_range := { switch_arg.meta.slot_range with
                        tag := Proxy.SlotRangeTag.Importing meta } }
    if current_epoch < meta.epoch then Except.error Proxy.SwitchError.NotReady
    else migration_map_handle_switch { version := switch_arg.version, meta := task_meta } sub_cmd
  | Proxy.SlotRangeTag.Importing meta =>
    if current_epoch < meta.epoch then Except.error Proxy.SwitchError.NotReady
    else migration_map_handle_switch { version := switch_arg.version, meta := switch_arg.meta } sub_cmd

/-- Cluster meta errors: only `OldEpoch` is produced by
`MetaManager::set_meta`. -/
inductive ClusterMetaError where
  | OldEpoch : ClusterMetaError
deriving Repr, DecidableEq

/-- Mirrors `ProxyClusterMeta` (`common/proto.rs`, not under `src/`) as
consumed by `set_meta`: the epoch, the flags, and the local/peer maps
abstracted as a payload of type `α`. -/
structure ProxyClusterMeta (α : Type) where
  epoch : Nat
  flags : DBMapFlags
  maps : α

/-- Mutable state of the `MetaManager`: the stored epoch and the published
snapshot (of abstract type `σ`). -/
structure MetaManagerState (σ : Type) where
  epoch : Nat
  meta_map : σ
deriving Repr, DecidableEq

/-- Mirrors `MetaManager::set_meta` with the snapshot construction
(`ClusterBackendMap::from_cluster_map`, the migration-map diff and the
delete-task map, none of which are under `src/`) abstracted as the
function parameter `build_meta_map`: unless the incoming epoch is
strictly newer or the force flag is set, return `OldEpoch` and leave the
state untouched; otherwise publish the new snapshot and store the new
epoch. -/
def MetaManager.set_meta {α σ : Type} (build_meta_map : ProxyClusterMeta α → σ → σ)
    (st : MetaManagerState σ) (cluster_meta : ProxyClusterMeta α) :
    MetaManagerState σ × Option ClusterMetaError :=
  if cluster_meta.epoch ≤ st.epoch ∧ cluster_meta.flags.force = false then
    (st, some ClusterMetaError.OldEpoch)
  else
    ({ epoch := cluster_meta.epoch, meta_map := build_meta_map cluster_meta st.meta_map }, none)

/-- Modelled from the spec: the reserved default cluster name
(`proxy/cluster.rs` is not under `src/`). -/
def DEFAULT_CLUSTER : String := "admin"

/-- Command context as far as `try_select_db` observes it: the session's
cluster name plus an arbitrary untouched payload. -/
structure CmdCtx (α : Type) where
  cluster_name : String
  payload : α
deriving Repr, DecidableEq

/-- Modelled from the spec: `ClusterBackendMap::auto_select_cluster`
(`proxy/cluster.rs` is not under `src/`) yields the unique hosted cluster
when `auto_select_db` is enabled and exactly one cluster is hosted, and
nothing otherwise. -/
def ClusterBackendMap.auto_select_cluster (auto_select_db : Bool)
    (clusters : List String) : Option String :=
  if auto_select_db then
    match clusters with
    | [c] => some c
    | _ => none
  else none

/-- Mirrors `MetaManager::try_select_db`: a session that is not on the
default cluster is returned unchanged; otherwise the cluster name is set
to whatever `auto_select_cluster` yields, if anything. -/
def MetaManager.try_select_db {α : Type} (auto_select_db : Bool)
    (clusters : List String) (cmd_ctx : CmdCtx α) : CmdCtx α :=
  if cmd_ctx.cluster_name ≠ DEFAULT_CLUSTER then cmd_ctx
  else
    match ClusterBackendMap.auto_select_cluster auto_select_db clusters with
    | some cluster_name => { cmd_ctx with cluster_name := cluster_name }
    | none => cmd_ctx

/-! ## `RedisReplicaReplicator` (`replication/redis_replicator.rs`)

The `AtomicOption` stop channel is modelled as an `Option Nat` (channels
identified by a token): `try_store` succeeds only on an empty cell and
`take` consumes the stored value, per the `atomic_option` crate's
documented semantics.  Whether the oneshot receiver is still alive when
the stop signal is sent is a parameter. -/

/-- Replicator errors from `replication/replicator.rs` (not under `src/`;
constructors from the use sites in `redis_replicator.rs`). -/
inductive ReplicatorError where
  | AlreadyStarted : ReplicatorError
  | AlreadyEnded : ReplicatorError
  | Canceled : ReplicatorError
  | InvalidAddress : ReplicatorError
deriving Repr, DecidableEq

/-- State of a `RedisReplicaReplicator`: the stored stop channel, if any. -/
structure RedisReplicaReplicatorState where
  stop_channel : Option Nat
deriving Repr, DecidableEq

/-- Outcome of `RedisReplicaReplicator::start`. -/
inductive StartResult where
  | alreadyStarted : StartResult
  | invalidAddress : StartResult
  | launched (slaveof_cmd : List String) : StartResult
deriving Repr, DecidableEq

/-- Mirrors `RedisReplicaReplicator::start`: `try_store` a fresh stop
channel — an occupied cell means a previous start's channel is still
stored, so the call fails with `AlreadyStarted` and launches nothing;
otherwise resolve the master address (`revolve_first_address` is modelled
by the `resolved` parameter) and launch the `SLAVEOF host port` loop. -/
def RedisReplicaReplicator.start (st : RedisReplicaReplicatorState)
    (fresh_channel : Nat) (resolved : Option (String × String)) :
    RedisReplicaReplicatorState × Except ReplicatorError StartResult :=
  match st.stop_channel with
  | some _ => (st, Except.error ReplicatorError.AlreadyStarted)
  | none =>
    let st2 : RedisReplicaReplicatorState := { stop_channel := some fresh_channel }
    match resolved with
    | none => (st2, Except.error ReplicatorError.InvalidAddress)
    | some (host, port) => (st2, Except.ok (StartResult.launched ["SLAVEOF", host, port]))

/-- Mirrors `RedisReplicaReplicator::send_stop_signal`: `take` the stored
channel — nothing stored means the replicator never started or already
stopped, giving `AlreadyEnded`; a stored channel is consumed and the
signal sent (failing with `Canceled` when the receiver is gone, per the
`send_ok` parameter). -/
def RedisReplicaReplicator.send_stop_signal (st : RedisReplicaReplicatorState)
    (send_ok : Bool) : RedisReplicaReplicatorState × Option ReplicatorError :=
  match st.stop_channel with
  | some _ =>
    ({ stop_channel := none }, if send_ok then none else some ReplicatorError.Canceled)
  | none => (st, some ReplicatorError.AlreadyEnded)

/-- Mirrors `RedisReplicaReplicator::stop`, which just wraps
`send_stop_signal` in a future. -/
def RedisReplicaReplicator.stop (st : RedisReplicaReplicatorState) (send_ok : Bool) :
    RedisReplicaReplicatorState × Option ReplicatorError :=
  RedisReplicaReplicator.send_stop_signal st send_ok

/-! ## Theorems -/

/-! ### Helper lemmas about the `SETDB` grammar -/

theorem parse_tagged_slot_range_length {l rest : List String} {sr : SlotRange}
    (h : HostDBMap.parse_tagged_slot_range l = some (sr, rest)) :
    rest.length < l.length := by
  rw [HostDBMap.parse_tagged_slot_range.eq_def] at h
  split at h
  · exact absurd h (by simp)
  next sr_token tail =>
    split at h
    · split at h
      next dst range_token rest2 =>
        split at h
        · cases h
          simp
          omega
        · exact absurd h (by simp)
      next => exact absurd h (by simp)
    · split at h
      · split at h
        next src range_token rest2 =>
          split at h
          · cases h
            simp
            omega
          · exact absurd h (by simp)
        next => exact absurd h (by simp)
      · split at h
        · cases h
          simp
        · exact absurd h (by simp)

theorem parse_db_length {l rest : List String} {e : DbEntry}
    (h : HostDBMap.parse_db l = some (e, rest)) :
    rest.length < l.length := by
  match l with
  | [] => simp [HostDBMap.parse_db] at h
  | [_] => simp [HostDBMap.parse_db] at h
  | dbname :: addr :: tail =>
    cases hp : HostDBMap.parse_tagged_slot_range tail with
    | none => simp [HostDBMap.parse_db, hp] at h
    | some pr =>
      obtain ⟨sr, rest2⟩ := pr
      simp only [HostDBMap.parse_db, hp, Option.some.injEq, Prod.mk.injEq] at h
      obtain ⟨-, h2⟩ := h
      subst h2
      have := parse_tagged_slot_range_length hp
      simp
      omega

/-- Each nonempty iteration of the inlined parse loop agrees with
`HostDBMap.parse_db`: the loop is exactly the source's
`while let Some(_) = it.peek() { parse_db; insert }`. -/
theorem parseLoop_step (m : DbMap) (l : List String) (hne : l ≠ []) :
    HostDBMap.parseLoop m l =
      match HostDBMap.parse_db l with
      | some (e, rest) => HostDBMap.parseLoop (insertDb m e.1 e.2.1 e.2.2) rest
      | none => none := by
  match l with
  | [] => exact absurd rfl hne
  | [a] => simp [HostDBMap.parseLoop, HostDBMap.parse_db]
  | [a, b] =>
    simp [HostDBMap.parseLoop, HostDBMap.parse_db, HostDBMap.parse_tagged_slot_range]
  | dbname :: addr :: sr_token :: rest =>
    by_cases h1 : strToUpper sr_token = "MIGRATING"
    · match rest with
      | [] =>
        simp [HostDBMap.parseLoop, HostDBMap.parse_db, HostDBMap.parse_tagged_slot_range, h1]
      | [d] =>
        simp [HostDBMap.parseLoop, HostDBMap.parse_db, HostDBMap.parse_tagged_slot_range, h1]
      | dst :: range_token :: rest2 =>
        cases hp : HostDBMap.parse_slot_range range_token with
        | none =>
          simp [HostDBMap.parseLoop, HostDBMap.parse_db, HostDBMap.parse_tagged_slot_range,
            h1, hp]
        | some sr0 =>
          simp [HostDBMap.parseLoop, HostDBMap.parse_db, HostDBMap.parse_tagged_slot_range,
            h1, hp]
    · by_cases h2 : strToUpper sr_token = "IMPORTING"
      · match rest with
        | [] =>
          simp [HostDBMap.parseLoop, HostDBMap.parse_db, HostDBMap.parse_tagged_slot_range,
            h1, h2]
        | [d] =>
          simp [HostDBMap.parseLoop, HostDBMap.parse_db, HostDBMap.parse_tagged_slot_range,
            h1, h2]
        | src :: range_token :: rest2 =>
          cases hp : HostDBMap.parse_slot_range range_token with
          | none =>
            simp [HostDBMap.parseLoop, HostDBMap.parse_db, HostDBMap.parse_tagged_slot_range,
              h1, h2, hp]
          | some sr0 =>
            simp [HostDBMap.parseLoop, HostDBMap.parse_db, HostDBMap.parse_tagged_slot_range,
              h1, h2, hp]
      · match rest with
        | [] =>
          cases hp : HostDBMap.parse_slot_range sr_token with
          | none =>
            simp [HostDBMap.parseLoop, HostDBMap.parse_db, HostDBMap.parse_tagged_slot_range,
              h1, h2, hp]
          | some sr0 =>
            simp [HostDBMap.parseLoop, HostDBMap.parse_db, HostDBMap.parse_tagged_slot_range,
              h1, h2, hp]
        | [d] =>
          cases hp : HostDBMap.parse_slot_range sr_token with
          | none =>
            simp [HostDBMap.parseLoop, HostDBMap.parse_db, HostDBMap.parse_tagged_slot_range,
              h1, h2, hp]
          | some sr0 =>
            simp [HostDBMap.parseLoop, HostDBMap.parse_db, HostDBMap.parse_tagged_slot_range,
              h1, h2, hp]
        | d :: e :: rest2 =>
          cases hp : HostDBMap.parse_slot_range sr_token with
          | none =>
            simp [HostDBMap.parseLoop, HostDBMap.parse_db, HostDBMap.parse_tagged_slot_range,
              h1, h2, hp]
          | some sr0 =>
            simp [HostDBMap.parseLoop, HostDBMap.parse_db, HostDBMap.parse_tagged_slot_range,
              h1, h2, hp]

/-- The parse loop is the flat entry list folded into the map with
`insertDb`. -/
theorem parseLoop_eq (l : List String) (m : DbMap) :
    HostDBMap.parseLoop m l =
      (HostDBMap.parseEntries l).map
        (fun es => es.foldl (fun acc e => insertDb acc e.1 e.2.1 e.2.2) m) := by
  have main : ∀ (n : Nat) (l : List String), l.length ≤ n → ∀ m : DbMap,
      HostDBMap.parseLoop m l =
        (HostDBMap.parseEntries l).map
          (fun es => es.foldl (fun acc e => insertDb acc e.1 e.2.1 e.2.2) m) := by
    intro n
    induction n with
    | zero =>
      intro l hl m
      match l with
      | [] => simp [HostDBMap.parseLoop, HostDBMap.parseEntries]
      | _ :: _ => simp at hl
    | succ n ih =>
      intro l hl m
      match l with
      | [] => simp [HostDBMap.parseLoop, HostDBMap.parseEntries]
      | [a] => simp [HostDBMap.parseLoop, HostDBMap.parseEntries]
      | [a, b] => simp [HostDBMap.parseLoop, HostDBMap.parseEntries]
      | dbname :: addr :: sr_token :: rest =>
        by_cases h1 : strToUpper sr_token = "MIGRATING"
        · match rest with
          | [] => simp [HostDBMap.parseLoop, HostDBMap.parseEntries, h1]
          | [d] => simp [HostDBMap.parseLoop, HostDBMap.parseEntries, h1]
          | dst :: range_token :: rest2 =>
            cases hp : HostDBMap.parse_slot_range range_token with
            | none => simp [HostDBMap.parseLoop, HostDBMap.parseEntries, h1, hp]
            | some sr0 =>
              have hrec := ih rest2 (by simp at hl; omega)
                (insertDb m dbname addr { sr0 with tag := SlotRangeTag.Migrating dst })
              simp only [HostDBMap.parseLoop, HostDBMap.parseEntries, h1, hp, if_true, hrec]
              cases HostDBMap.parseEntries rest2 <;> simp
        · by_cases h2 : strToUpper sr_token = "IMPORTING"
          · match rest with
            | [] => simp [HostDBMap.parseLoop, HostDBMap.parseEntries, h1, h2]
            | [d] => simp [HostDBMap.parseLoop, HostDBMap.parseEntries, h1, h2]
            | src :: range_token :: rest2 =>
              cases hp : HostDBMap.parse_slot_range range_token with
              | none => simp [HostDBMap.parseLoop, HostDBMap.parseEntries, h1, h2, hp]
              | some sr0 =>
                have hrec := ih rest2 (by simp at hl; omega)
                  (insertDb m dbname addr { sr0 with tag := SlotRangeTag.Importing src })
                simp only [HostDBMap.parseLoop, HostDBMap.parseEntries, h1, h2, hp,
                  if_true, if_false, hrec]
                cases HostDBMap.parseEntries rest2 <;> simp
          · match rest with
            | [] =>
              cases hp : HostDBMap.parse_slot_range sr_token with
              | none => simp [HostDBMap.parseLoop, HostDBMap.parseEntries, h1, h2, hp]
              | some sr0 =>
                simp [HostDBMap.parseLoop, HostDBMap.parseEntries, h1, h2, hp]
            | [d] =>
              cases hp : HostDBMap.parse_slot_range sr_token with
              | none => simp [HostDBMap.parseLoop, HostDBMap.parseEntries, h1, h2, hp]
              | some sr0 =>
                have hrec := ih [d] (by simp at hl ⊢; omega) (insertDb m dbname addr sr0)
                simp only [HostDBMap.parseLoop, HostDBMap.parseEntries, h1, h2, hp,
                  if_true, if_false, hrec]
                cases HostDBMap.parseEntries [d] <;> simp
            | d :: e :: rest2 =>
              cases hp : HostDBMap.parse_slot_range sr_token with
              | none => simp [HostDBMap.parseLoop, HostDBMap.parseEntries, h1, h2, hp]
              | some sr0 =>
                have hrec := ih (d :: e :: rest2) (by simp at hl ⊢; omega)
                  (insertDb m dbname addr sr0)
                simp only [HostDBMap.parseLoop, HostDBMap.parseEntries, h1, h2, hp,
                  if_true, if_false, hrec]
                cases HostDBMap.parseEntries (d :: e :: rest2) <;> simp
  exact main l.length l le_rfl m

/-! ### Helper lemmas about grouping and serialization -/

theorem nodeTriples_insertNode (d addr : String) (sr : SlotRange) :
    ∀ ns, (nodeTriples d (insertNode ns addr sr)).Perm ((d, addr, sr) :: nodeTriples d ns) := by
  intro ns
  induction ns with
  | nil => simp [insertNode, nodeTriples]
  | cons q rest ihq =>
    obtain ⟨a, rs⟩ := q
    by_cases ha : a = addr
    · subst ha
      simp only [insertNode, nodeTriples, List.flatMap_cons, List.map_append,
        eq_self_iff_true, if_true, List.append_assoc, List.singleton_append]
      exact List.perm_middle
    · simp only [insertNode, if_neg ha, nodeTriples, List.flatMap_cons]
      exact (List.Perm.append_left _ ihq).trans List.perm_middle

theorem dbTriples_insertDb (db addr : String) (sr : SlotRange) :
    ∀ m : DbMap, (dbTriples (insertDb m db addr sr)).Perm ((db, addr, sr) :: dbTriples m) := by
  intro m
  induction m with
  | nil => simp [insertDb, dbTriples, nodeTriples]
  | cons p rest ihp =>
    obtain ⟨d, ns⟩ := p
    by_cases hd : d = db
    · subst hd
      simp only [insertDb, if_pos rfl, dbTriples, List.flatMap_cons]
      exact (nodeTriples_insertNode d addr sr ns).append_right _
    · simp only [insertDb, if_neg hd, dbTriples, List.flatMap_cons]
      exact (List.Perm.append_left _ ihp).trans List.perm_middle

theorem dbTriples_foldl : ∀ (entries : List DbEntry) (m : DbMap),
    (dbTriples (entries.foldl (fun acc e => insertDb acc e.1 e.2.1 e.2.2) m)).Perm
      (dbTriples m ++ entries) := by
  intro entries
  induction entries with
  | nil => intro m; simp
  | cons e es ihe =>
    intro m
    simp only [List.foldl_cons]
    have h1 := ihe (insertDb m e.1 e.2.1 e.2.2)
    have h2 := (dbTriples_insertDb e.1 e.2.1 e.2.2 m).append_right es
    have h3 : ((e.1, e.2.1, e.2.2) :: dbTriples m) ++ es = e :: (dbTriples m ++ es) := by simp
    rw [h3] at h2
    exact (h1.trans h2).trans List.perm_middle.symm

theorem nodeArgs_eq_triples (d : String) (ns : List (String × List SlotRange)) :
    ns.flatMap (fun q => q.2.flatMap (fun sr => d :: q.1 :: slotRangeArgs sr)) =
      (nodeTriples d ns).flatMap entryTokens := by
  induction ns with
  | nil => simp [nodeTriples]
  | cons q qs ihq =>
    obtain ⟨a, rs⟩ := q
    simp only [nodeTriples, List.flatMap_cons, List.flatMap_append, List.flatMap_map] at *
    rw [ihq]
    rfl

theorem dbMapToArgsList_eq_triples (m : DbMap) :
    dbMapToArgsList m = (dbTriples m).flatMap entryTokens := by
  induction m with
  | nil => simp [dbMapToArgsList, dbTriples]
  | cons p rest ihp =>
    obtain ⟨d, ns⟩ := p
    calc dbMapToArgsList ((d, ns) :: rest)
        = ns.flatMap (fun q => q.2.flatMap (fun sr => d :: q.1 :: slotRangeArgs sr)) ++
            dbMapToArgsList rest := rfl
      _ = (nodeTriples d ns).flatMap entryTokens ++ (dbTriples rest).flatMap entryTokens := by
            rw [nodeArgs_eq_triples, ihp]
      _ = (nodeTriples d ns ++ dbTriples rest).flatMap entryTokens :=
            (List.flatMap_append ..).symm
      _ = (dbTriples ((d, ns) :: rest)).flatMap entryTokens := rfl

/-! ### Helper lemmas about the delete-keys scan loop -/

theorem scan_and_delete_keys_scanCmd (ranges : SlotRangeArray) (cursor : Nat)
    (sr dr : Resp) :
    (scan_and_delete_keys ranges cursor sr dr).scanCmd = ["SCAN", Nat.repr cursor] := by
  cases hps : parse_scan sr with
  | none => simp [scan_and_delete_keys, hps]
  | some scan =>
    by_cases hemp : (scan.keys.filter (fun k => ! ranges.is_key_inside k)).isEmpty
    · simp [scan_and_delete_keys, hps, hemp]
    · cases dr <;> simp [scan_and_delete_keys, hps, hemp]

theorem run_delete_keys_loop_get_zero (ranges : SlotRangeArray) (cursor : Nat)
    (replies : List (Resp × Resp)) (o : StepOut)
    (h : (run_delete_keys_loop ranges cursor replies).get? 0 = some o) :
    o.scanCmd = ["SCAN", Nat.repr cursor] := by
  match replies with
  | [] => simp [run_delete_keys_loop] at h
  | (sr, dr) :: rest =>
    simp only [run_delete_keys_loop] at h
    cases hres : (scan_and_delete_keys ranges cursor sr dr).result with
    | error e =>
      rw [hres] at h
      simp only [List.get?_cons_zero, Option.some.injEq] at h
      subst h
      exact scan_and_delete_keys_scanCmd ranges cursor sr dr
    | ok pair =>
      obtain ⟨r2, n⟩ := pair
      rw [hres] at h
      simp only [List.get?_cons_zero, Option.some.injEq] at h
      subst h
      exact scan_and_delete_keys_scanCmd ranges cursor sr dr

/-! ### Claim theorems -/

/-- C1: a call to `MetaManager::set_meta(meta)` returns the `OldEpoch` error
if and only if the incoming meta's epoch is not strictly greater than the
current epoch and its force flag is not set; and when `OldEpoch` is
returned, neither the published snapshot nor the stored epoch is mutated.
The theorem holds for every snapshot builder (the collaborator code
abstracted in the embedding). -/
theorem set_meta_old_epoch_iff {α σ : Type} (build_meta_map : ProxyClusterMeta α → σ → σ)
    (st : MetaManagerState σ) (cluster_meta : ProxyClusterMeta α) :
    ((MetaManager.set_meta build_meta_map st cluster_meta).2 = some ClusterMetaError.OldEpoch ↔
      (¬ st.epoch < cluster_meta.epoch ∧ cluster_meta.flags.force = false))
    ∧ ((MetaManager.set_meta build_meta_map st cluster_meta).2 = some ClusterMetaError.OldEpoch →
        (MetaManager.set_meta build_meta_map st cluster_meta).1 = st) := by
  by_cases h : cluster_meta.epoch ≤ st.epoch ∧ cluster_meta.flags.force = false
  · refine ⟨⟨fun _ => ⟨by omega, h.2⟩, fun _ => ?_⟩, fun _ => ?_⟩
    · simp [MetaManager.set_meta, if_pos h]
    · simp [MetaManager.set_meta, if_pos h]
  · refine ⟨⟨fun hc => ?_, fun hc => ?_⟩, fun hc => ?_⟩
    · exact absurd hc (by simp [MetaManager.set_meta, if_neg h])
    · exact absurd ⟨by omega, hc.2⟩ h
    · exact absurd hc (by simp [MetaManager.set_meta, if_neg h])

theorem set_meta_old_epoch_iff_witness :
    (MetaManager.set_meta (fun (_ : ProxyClusterMeta Unit) (s : Nat) => s)
        { epoch := 5, meta_map := 0 } { epoch := 3, flags := { force := false }, maps := () }).1
      = { epoch := 5, meta_map := 0 } :=
  (set_meta_old_epoch_iff (fun (_ : ProxyClusterMeta Unit) (s : Nat) => s)
      { epoch := 5, meta_map := 0 }
      { epoch := 3, flags := { force := false }, maps := () }).2 (by decide)

/-- C3: a `handle_switch` call whose slot-range tag carries an epoch
strictly greater than the manager's current epoch returns `NotReady`
without delegating to the migration map (the result is `NotReady` for
every delegate); a switch whose epoch is at most the current epoch is
delegated, so it is not rejected for this reason. -/
theorem handle_switch_epoch_guard
    (delegate : Proxy.SwitchArg → Proxy.MgrSubCmd → Except Proxy.SwitchError Unit)
    (current_epoch : Nat) (switch_arg : Proxy.SwitchArg) (sub_cmd : Proxy.MgrSubCmd)
    (meta : MigrationMeta)
    (htag : switch_arg.meta.slot_range.tag = Proxy.SlotRangeTag.Migrating meta ∨
            switch_arg.meta.slot_range.tag = Proxy.SlotRangeTag.Importing meta) :
    (current_epoch < meta.epoch →
      MetaManager.handle_switch delegate current_epoch switch_arg sub_cmd
        = Except.error Proxy.SwitchError.NotReady)
    ∧ (meta.epoch ≤ current_epoch →
      ∃ arg2 : Proxy.SwitchArg,
        MetaManager.handle_switch delegate current_epoch switch_arg sub_cmd
          = delegate arg2 sub_cmd) := by
  cases htag with
  | inl h =>
    constructor
    · intro hlt
      simp [MetaManager.handle_switch, h, hlt]
    · intro hle
      have hnlt : ¬ current_epoch < meta.epoch := by omega
      exact ⟨{ version := switch_arg.version,
               meta := { switch_arg.meta with
                         slot_range := { switch_arg.meta.slot_range with
                                         tag := Proxy.SlotRangeTag.Importing meta } } },
             by simp [MetaManager.handle_switch, h, hnlt]⟩
  | inr h =>
    constructor
    · intro hlt
      simp [MetaManager.handle_switch, h, hlt]
    · intro hle
      have hnlt : ¬ current_epoch < meta.epoch := by omega
      exact ⟨switch_arg, by simp [MetaManager.handle_switch, h, hnlt]⟩

theorem handle_switch_epoch_guard_witness :
    MetaManager.handle_switch (fun _ _ => Except.ok ()) 3
        { version := "v1",
          meta := { db_name := "c1",
                    slot_range := { start := 300, «end» := 400,
                                    tag := Proxy.SlotRangeTag.Migrating
                                      { epoch := 4, src_proxy_address := "sp",
                                        src_node_address := "sn", dst_proxy_address := "dp",
                                        dst_node_address := "dn" } } } }
        Proxy.MgrSubCmd.Pre = Except.error Proxy.SwitchError.NotReady :=
  ((handle_switch_epoch_guard (fun _ _ => Except.ok ()) 3 _ Proxy.MgrSubCmd.Pre
      { epoch := 4, src_proxy_address := "sp", src_node_address := "sn",
        dst_proxy_address := "dp", dst_node_address := "dn" } (Or.inl rfl)).1) (by decide)

/-- C4: when `handle_switch` delegates (the switch epoch is at most the
current epoch), a `Migrating` tag is rewritten to `Importing` with the
identical migration meta before the argument is forwarded to the
migration map, and an `Importing` tag is forwarded unchanged. -/
theorem handle_switch_tag_normalization
    (delegate : Proxy.SwitchArg → Proxy.MgrSubCmd → Except Proxy.SwitchError Unit)
    (current_epoch : Nat) (switch_arg : Proxy.SwitchArg) (sub_cmd : Proxy.MgrSubCmd)
    (meta : MigrationMeta) :
    (switch_arg.meta.slot_range.tag = Proxy.SlotRangeTag.Migrating meta →
      meta.epoch ≤ current_epoch →
      MetaManager.handle_switch delegate current_epoch switch_arg sub_cmd =
        delegate { version := switch_arg.version,
                   meta := { switch_arg.meta with
                             slot_range := { switch_arg.meta.slot_range with
                                             tag := Proxy.SlotRangeTag.Importing meta } } }
          sub_cmd)
    ∧ (switch_arg.meta.slot_range.tag = Proxy.SlotRangeTag.Importing meta →
      meta.epoch ≤ current_epoch →
      MetaManager.handle_switch delegate current_epoch switch_arg sub_cmd =
        delegate switch_arg sub_cmd) := by
  constructor
  · intro h hle
    have hnlt : ¬ current_epoch < meta.epoch := by omega
    simp [MetaManager.handle_switch, h, hnlt]
  · intro h hle
    have hnlt : ¬ current_epoch < meta.epoch := by omega
    simp [MetaManager.handle_switch, h, hnlt]

theorem handle_switch_tag_normalization_witness :
    MetaManager.handle_switch
        (fun a _ =>
          if a.meta.slot_range.tag =
              Proxy.SlotRangeTag.Importing
                { epoch := 4, src_proxy_address := "sp", src_node_address := "sn",
                  dst_proxy_address := "dp", dst_node_address := "dn" }
          then Except.ok () else Except.error Proxy.SwitchError.InvalidCmd)
        4
        { version := "v1",
          meta := { db_name := "c1",
                    slot_range := { start := 300, «end» := 400,
                                    tag := Proxy.SlotRangeTag.Migrating
                                      { epoch := 4, src_proxy_address := "sp",
                                        src_node_address := "sn", dst_proxy_address := "dp",
                                        dst_node_address := "dn" } } } }
        Proxy.MgrSubCmd.Pre = Except.ok () :=
  ((handle_switch_tag_normalization
      (fun a _ =>
        if a.meta.slot_range.tag =
            Proxy.SlotRangeTag.Importing
              { epoch := 4, src_proxy_address := "sp", src_node_address := "sn",
                dst_proxy_address := "dp", dst_node_address := "dn" }
        then Except.ok () else Except.error Proxy.SwitchError.InvalidCmd)
      4 _ Proxy.MgrSubCmd.Pre
      { epoch := 4, src_proxy_address := "sp", src_node_address := "sn",
        dst_proxy_address := "dp", dst_node_address := "dn" }).1 rfl (by decide)).trans
    rfl

/-- C6: whenever the interval computation of `DeleteKeysTask::gen_future`
is defined, the interval between delete-task batches equals
`1_000_000_000 / (delete_rate / SCAN_DEFAULT_SIZE)` nanoseconds with
`SCAN_DEFAULT_SIZE = 10`, both divisions being integer divisions. -/
theorem gen_future_interval_eq (delete_rate v : Nat)
    (h : gen_future_interval delete_rate = some v) :
    v = 1000000000 / (delete_rate / 10) := by
  by_cases hz : delete_rate / 10 = 0
  · simp [gen_future_interval, checked_div, SCAN_DEFAULT_SIZE, hz] at h
  · simp only [gen_future_interval, checked_div, SCAN_DEFAULT_SIZE, hz, if_false,
      Option.some.injEq] at h
    exact h.symm

theorem gen_future_interval_eq_witness :
    gen_future_interval 100 = some 100000000 ∧ (100000000 : Nat) = 1000000000 / (100 / 10) :=
  ⟨by decide, gen_future_interval_eq 100 100000000 (by decide)⟩

/-- C9: the interval computation of `DeleteKeysTask::gen_future` (and so
the construction of a `DeleteKeysTask`) is well-defined exactly for
`delete_rate ≥ 10`: below 10 the inner integer division yields a zero
divisor so the outer division has no value, and at 10 or above the
computation is total. -/
theorem gen_future_interval_defined (delete_rate : Nat) :
    (delete_rate < 10 →
      delete_rate / SCAN_DEFAULT_SIZE = 0 ∧ gen_future_interval delete_rate = none)
    ∧ (10 ≤ delete_rate → ∃ v, gen_future_interval delete_rate = some v) := by
  constructor
  · intro h
    have hz : delete_rate / 10 = 0 := Nat.div_eq_of_lt h
    exact ⟨hz, by simp [gen_future_interval, checked_div, SCAN_DEFAULT_SIZE, hz]⟩
  · intro h
    have hz : ¬ delete_rate / 10 = 0 := by omega
    exact ⟨1000000000 / (delete_rate / 10),
      by simp [gen_future_interval, checked_div, SCAN_DEFAULT_SIZE, hz]⟩

theorem gen_future_interval_defined_witness :
    gen_future_interval 5 = none ∧ ∃ v, gen_future_interval 20 = some v :=
  ⟨((gen_future_interval_defined 5).1 (by decide)).2,
   (gen_future_interval_defined 20).2 (by decide)⟩

/-- C8: `try_select_db` changes the session's cluster name only when
`auto_select_db` is enabled, the session is on the default cluster and
exactly one cluster is hosted; in every other case the command context is
returned unchanged. -/
theorem try_select_db_cases {α : Type} (auto_select_db : Bool)
    (clusters : List String) (cmd_ctx : CmdCtx α) :
    (auto_select_db = false →
      MetaManager.try_select_db auto_select_db clusters cmd_ctx = cmd_ctx)
    ∧ (cmd_ctx.cluster_name ≠ DEFAULT_CLUSTER →
      MetaManager.try_select_db auto_select_db clusters cmd_ctx = cmd_ctx)
    ∧ ((∀ c : String, clusters ≠ [c]) →
      MetaManager.try_select_db auto_select_db clusters cmd_ctx = cmd_ctx)
    ∧ (∀ c : String, auto_select_db = true → cmd_ctx.cluster_name = DEFAULT_CLUSTER →
        clusters = [c] →
        MetaManager.try_select_db auto_select_db clusters cmd_ctx
          = { cmd_ctx with cluster_name := c }) := by
  refine ⟨?_, ?_, ?_, ?_⟩
  · intro h
    subst h
    by_cases hname : cmd_ctx.cluster_name = DEFAULT_CLUSTER
    · simp [MetaManager.try_select_db, hname, ClusterBackendMap.auto_select_cluster]
    · simp [MetaManager.try_select_db, hname]
  · intro h
    simp [MetaManager.try_select_db, h]
  · intro h
    by_cases hname : cmd_ctx.cluster_name = DEFAULT_CLUSTER
    · match clusters, h with
      | [], h =>
        cases auto_select_db <;>
          simp [MetaManager.try_select_db, hname, ClusterBackendMap.auto_select_cluster]
      | [c], h => exact absurd rfl (h c)
      | c1 :: c2 :: cs, h =>
        cases auto_select_db <;>
          simp [MetaManager.try_select_db, hname, ClusterBackendMap.auto_select_cluster]
    · simp [MetaManager.try_select_db, hname]
  · intro c hauto hname hcl
    subst hauto
    subst hcl
    simp [MetaManager.try_select_db, hname, ClusterBackendMap.auto_select_cluster]

theorem try_select_db_cases_witness :
    MetaManager.try_select_db true ["c1"] { cluster_name := "admin", payload := () }
      = { cluster_name := "c1", payload := () } :=
  (try_select_db_cases true ["c1"]
      { cluster_name := "admin", payload := () }).2.2.2 "c1" rfl rfl rfl

/-- C10: `RedisReplicaReplicator::start` while a previous start's stop
channel is still stored returns `AlreadyStarted` and stores nothing new;
`stop` with no stored channel returns `AlreadyEnded`; and a stop after a
successful start consumes the stored channel (so its result is not
`AlreadyEnded`). -/
theorem replica_replicator_lifecycle (st : RedisReplicaReplicatorState) (ch : Nat)
    (resolved : Option (String × String)) (send_ok : Bool) :
    (∀ c, st.stop_channel = some c →
      RedisReplicaReplicator.start st ch resolved
        = (st, Except.error ReplicatorError.AlreadyStarted))
    ∧ (st.stop_channel = none →
      RedisReplicaReplicator.stop st send_ok = (st, some ReplicatorError.AlreadyEnded))
    ∧ (st.stop_channel = none → ∀ host port, resolved = some (host, port) →
        (RedisReplicaReplicator.start st ch resolved).1.stop_channel = some ch
        ∧ (RedisReplicaReplicator.stop
            (RedisReplicaReplicator.start st ch resolved).1 send_ok).1.stop_channel = none
        ∧ (RedisReplicaReplicator.stop
            (RedisReplicaReplicator.start st ch resolved).1 send_ok).2
            ≠ some ReplicatorError.AlreadyEnded) := by
  refine ⟨?_, ?_, ?_⟩
  · intro c hc
    simp [RedisReplicaReplicator.start, hc]
  · intro hc
    simp [RedisReplicaReplicator.stop, RedisReplicaReplicator.send_stop_signal, hc]
  · intro hc host port hres
    subst hres
    refine ⟨?_, ?_, ?_⟩
    · simp [RedisReplicaReplicator.start, hc]
    · simp [RedisReplicaReplicator.start, hc, RedisReplicaReplicator.stop,
        RedisReplicaReplicator.send_stop_signal]
    · cases send_ok <;>
        simp [RedisReplicaReplicator.start, hc, RedisReplicaReplicator.stop,
          RedisReplicaReplicator.send_stop_signal]

theorem replica_replicator_lifecycle_witness :
    ({ stop_channel := some 7 } : RedisReplicaReplicatorState).stop_channel = some 7
    ∧ RedisReplicaReplicator.start { stop_channel := some 7 } 9 (some ("h", "p"))
        = ({ stop_channel := some 7 }, Except.error ReplicatorError.AlreadyStarted)
    ∧ RedisReplicaReplicator.stop { stop_channel := none } true
        = ({ stop_channel := none }, some ReplicatorError.AlreadyEnded) :=
  ⟨rfl,
   (replica_replicator_lifecycle { stop_channel := some 7 } 9 (some ("h", "p")) true).1 7 rfl,
   (replica_replicator_lifecycle { stop_channel := none } 9 (some ("h", "p")) true).2.1 rfl⟩

/-- C2: in every `scan_and_delete_keys` batch, every key passed to the DEL
command (the arguments after the DEL word) has a slot outside every
retained range, so no key whose slot lies inside a retained range is ever
deleted; and when every scanned key is retained, no DEL command is issued
at all. -/
theorem scan_and_delete_keys_filter (ranges : SlotRangeArray) (cursor : Nat)
    (scan_reply del_reply : Resp) :
    (∀ cmd, (scan_and_delete_keys ranges cursor scan_reply del_reply).delCmd = some cmd →
      cmd.head? = some [68, 69, 76] ∧
      ∀ k ∈ cmd.drop 1, ranges.is_key_inside k = false)
    ∧ (∀ scan, parse_scan scan_reply = some scan →
        (∀ k ∈ scan.keys, ranges.is_key_inside k = true) →
        (scan_and_delete_keys ranges cursor scan_reply del_reply).delCmd = none) := by
  constructor
  · intro cmd hcmd
    cases hps : parse_scan scan_reply with
    | none => simp [scan_and_delete_keys, hps] at hcmd
    | some scan =>
      by_cases hemp : (scan.keys.filter (fun k => ! ranges.is_key_inside k)).isEmpty
      · simp [scan_and_delete_keys, hps, hemp] at hcmd
      · have hcmd2 : cmd = [68, 69, 76] :: scan.keys.filter (fun k => ! ranges.is_key_inside k) := by
          cases del_reply <;> simp [scan_and_delete_keys, hps, hemp] at hcmd <;>
            exact hcmd.symm
        subst hcmd2
        refine ⟨rfl, ?_⟩
        intro k hk
        simp only [List.drop_succ_cons, List.drop_zero, List.mem_filter] at hk
        simpa using hk.2
  · intro scan hps hall
    have hnil : scan.keys.filter (fun k => ! ranges.is_key_inside k) = [] := by
      rw [List.filter_eq_nil_iff]
      intro k hk
      simp [hall k hk]
    simp [scan_and_delete_keys, hps, hnil]

theorem scan_and_delete_keys_filter_witness :
    (scan_and_delete_keys { ranges := [(0, 0)] } 0
        (Resp.Arr [Resp.Bulk (BulkStr.Str [49]), Resp.Arr [Resp.Bulk (BulkStr.Str [97])]])
        (Resp.Arr [])).delCmd = some [[68, 69, 76], [97]]
    ∧ (∀ k ∈ ([[68, 69, 76], [97]] : List Bytes).drop 1,
        SlotRangeArray.is_key_inside { ranges := [(0, 0)] } k = false) :=
  ⟨by decide,
   ((scan_and_delete_keys_filter { ranges := [(0, 0)] } 0
        (Resp.Arr [Resp.Bulk (BulkStr.Str [49]), Resp.Arr [Resp.Bulk (BulkStr.Str [97])]])
        (Resp.Arr [])).1 [[68, 69, 76], [97]] (by decide)).2⟩

/-- C5 is false as stated: the SCAN command issued by a delete-task batch
at cursor 0 is exactly `["SCAN", "0"]` — the command name and the cursor
only, with no bucket-size argument (no `"10"` token; the constant
`SCAN_DEFAULT_SIZE = 10` is used only in the rate-limit interval). -/
theorem scan_cmd_has_no_bucket_size :
    (scan_and_delete_keys { ranges := [] } 0 Resp.NilArr Resp.NilArr).scanCmd = ["SCAN", "0"]
    ∧ ((scan_and_delete_keys { ranges := [] } 0 Resp.NilArr Resp.NilArr).scanCmd).contains "10"
        = false
    ∧ ((scan_and_delete_keys { ranges := [] } 0 Resp.NilArr Resp.NilArr).scanCmd).length = 2 := by
  refine ⟨?_, ?_, ?_⟩ <;> rfl

/-- C5 (amended): the delete task's SCAN iteration starts with cursor 0;
each batch issues a SCAN command carrying exactly the command name and the
current cursor (no bucket-size argument — the backend's default bucket
size applies); the cursor returned by each reply is threaded into the next
batch; and, given a well-formed scan reply and a non-error DEL reply, the
task ends with `Done` exactly when the reply's returned cursor is 0. -/
theorem delete_task_scan_loop :
    (∀ (ranges : SlotRangeArray) (cursor : Nat) (sr dr : Resp),
      (scan_and_delete_keys ranges cursor sr dr).scanCmd = ["SCAN", Nat.repr cursor])
    ∧ (∀ (ranges : SlotRangeArray) (replies : List (Resp × Resp)) (o : StepOut),
        (DeleteKeysTask.run ranges replies).get? 0 = some o →
        o.scanCmd = ["SCAN", Nat.repr 0])
    ∧ (∀ (ranges : SlotRangeArray) (cursor : Nat) (replies : List (Resp × Resp))
        (i : Nat) (o o2 : StepOut),
        (run_delete_keys_loop ranges cursor replies).get? i = some o →
        (run_delete_keys_loop ranges cursor replies).get? (i + 1) = some o2 →
        ∃ r2 n, o.result = Except.ok (r2, n) ∧ o2.scanCmd = ["SCAN", Nat.repr n])
    ∧ (∀ (ranges : SlotRangeArray) (cursor : Nat) (sr dr : Resp) (scan : ScanResponse),
        parse_scan sr = some scan → dr.isError = false →
        ((scan_and_delete_keys ranges cursor sr dr).result
            = Except.error RedisClientError.Done ↔ scan.next_index = 0)) := by
  refine ⟨scan_and_delete_keys_scanCmd, ?_, ?_, ?_⟩
  · intro ranges replies o h
    exact run_delete_keys_loop_get_zero ranges 0 replies o h
  · intro ranges cursor replies
    induction replies generalizing ranges cursor with
    | nil =>
      intro i o o2 h1 h2
      simp [run_delete_keys_loop] at h1
    | cons pr rest ihr =>
      obtain ⟨sr, dr⟩ := pr
      intro i o o2 h1 h2
      simp only [run_delete_keys_loop] at h1 h2
      cases hres : (scan_and_delete_keys ranges cursor sr dr).result with
      | error e =>
        rw [hres] at h1 h2
        cases i with
        | zero => simp at h2
        | succ i2 => simp at h2
      | ok pair =>
        obtain ⟨r2, n⟩ := pair
        rw [hres] at h1 h2
        cases i with
        | zero =>
          simp only [List.get?_cons_zero, Option.some.injEq] at h1
          subst h1
          rw [List.get?_cons_succ] at h2
          exact ⟨r2, n, hres, run_delete_keys_loop_get_zero r2 n rest o2 (by simpa using h2)⟩
        | succ i2 =>
          rw [List.get?_cons_succ] at h1 h2
          exact ihr r2 n i2 o o2 h1 h2
  · intro ranges cursor sr dr scan hps hdr
    by_cases hemp : (scan.keys.filter (fun k => ! ranges.is_key_inside k)).isEmpty
    · by_cases hn : scan.next_index = 0 <;>
        simp [scan_and_delete_keys, hps, hemp, hn]
    · cases dr with
      | Error e => simp [Resp.isError] at hdr
      | Simple e =>
        by_cases hn : scan.next_index = 0 <;> simp [scan_and_delete_keys, hps, hemp, hn]
      | Integer e =>
        by_cases hn : scan.next_index = 0 <;> simp [scan_and_delete_keys, hps, hemp, hn]
      | Bulk b =>
        by_cases hn : scan.next_index = 0 <;> simp [scan_and_delete_keys, hps, hemp, hn]
      | Arr a =>
        by_cases hn : scan.next_index = 0 <;> simp [scan_and_delete_keys, hps, hemp, hn]
      | NilArr =>
        by_cases hn : scan.next_index = 0 <;> simp [scan_and_delete_keys, hps, hemp, hn]

theorem delete_task_scan_loop_witness :
    (scan_and_delete_keys { ranges := [] } 7 Resp.NilArr Resp.NilArr).scanCmd
        = ["SCAN", Nat.repr 7]
    ∧ parse_scan (Resp.Arr [Resp.Bulk (BulkStr.Str [48]), Resp.Arr []])
        = some { next_index := 0, keys := [] }
    ∧ ((scan_and_delete_keys { ranges := [] } 0
          (Resp.Arr [Resp.Bulk (BulkStr.Str [48]), Resp.Arr []]) Resp.NilArr).result
        = Except.error RedisClientError.Done ↔ (0 : Nat) = 0) :=
  ⟨delete_task_scan_loop.1 { ranges := [] } 7 Resp.NilArr Resp.NilArr,
   rfl,
   delete_task_scan_loop.2.2.2 { ranges := [] } 0
     (Resp.Arr [Resp.Bulk (BulkStr.Str [48]), Resp.Arr []]) Resp.NilArr
     { next_index := 0, keys := [] } rfl rfl⟩

/-- C7 is false as stated: the `SETDB` body with the uppercase tag token
`MIGRATING` is accepted by `HostDBMap::parse` (the tag comparison
uppercases the token first), but `db_map_to_args` always emits the
lowercase token `migrating`, so the serialized multiset differs from the
original entry arguments. -/
theorem setdb_roundtrip_counterexample :
    HostDBMap.parse ["2", "NOFLAG", "db", "n", "MIGRATING", "x", "0-1"]
      = some { epoch := 2, flags := { force := false },
               db_map := [("db", [("n", [{ start := 0, «end» := 1,
                                           tag := SlotRangeTag.Migrating "x" }])])] }
    ∧ ¬ (HostDBMap.db_map_to_args
          { epoch := 2, flags := { force := false },
            db_map := [("db", [("n", [{ start := 0, «end» := 1,
                                        tag := SlotRangeTag.Migrating "x" }])])] }).Perm
        ["db", "n", "MIGRATING", "x", "0-1"] := by
  constructor
  · decide
  · decide

/-- C7 (amended): for every `SETDB` body accepted by `HostDBMap::parse`
whose entry tokens are canonical — each tag token is the lowercase form
the serializer emits and each range token is the `start-end` decimal
rendering of the range it denotes, i.e. the body equals the canonical
token rendering of its own parse — serializing the parsed map with
`db_map_to_args` yields a multiset (`List.Perm`) equal to the original
entry arguments after the epoch and flags tokens; entry order within a
cluster need not be preserved.  (As stated, without the canonicity
condition, the claim is false: tag tokens are matched case-insensitively
but re-emitted lowercase.) -/
theorem setdb_parse_serialize_roundtrip (epoch_str flags_str : String)
    (rest : List String) (entries : List DbEntry) (ep : Nat)
    (he : parseU64 epoch_str = some ep)
    (hp : HostDBMap.parseEntries rest = some entries)
    (hc : rest = entries.flatMap entryTokens) :
    HostDBMap.parse (epoch_str :: flags_str :: rest)
      = some { epoch := ep, flags := DBMapFlags.from_arg flags_str,
               db_map := buildDbMap entries }
    ∧ (HostDBMap.db_map_to_args
        { epoch := ep, flags := DBMapFlags.from_arg flags_str,
          db_map := buildDbMap entries }).Perm rest := by
  constructor
  · simp only [HostDBMap.parse, he]
    rw [parseLoop_eq, hp]
    rfl
  · have h1 : HostDBMap.db_map_to_args
        { epoch := ep, flags := DBMapFlags.from_arg flags_str, db_map := buildDbMap entries }
        = (dbTriples (buildDbMap entries)).flatMap entryTokens :=
      dbMapToArgsList_eq_triples (buildDbMap entries)
    rw [h1, hc]
    have h2 : (dbTriples (buildDbMap entries)).Perm entries := by
      simpa [buildDbMap, dbTriples] using dbTriples_foldl entries []
    exact List.Perm.flatMap_right entryTokens h2

theorem setdb_parse_serialize_roundtrip_witness :
    HostDBMap.parse
        ("233" :: "NOFLAG" :: ["db", "n", "migrating", "m", "0-1", "db", "n2", "2-3"])
      = some { epoch := 233, flags := DBMapFlags.from_arg "NOFLAG",
               db_map := buildDbMap
                 [("db", "n", { start := 0, «end» := 1, tag := SlotRangeTag.Migrating "m" }),
                  ("db", "n2", { start := 2, «end» := 3, tag := SlotRangeTag.None })] }
    ∧ (HostDBMap.db_map_to_args
        { epoch := 233, flags := DBMapFlags.from_arg "NOFLAG",
          db_map := buildDbMap
            [("db", "n", { start := 0, «end» := 1, tag := SlotRangeTag.Migrating "m" }),
             ("db", "n2", { start := 2, «end» := 3, tag := SlotRangeTag.None })] }).Perm
        ["db", "n", "migrating", "m", "0-1", "db", "n2", "2-3"] :=
  setdb_parse_serialize_roundtrip "233" "NOFLAG"
    ["db", "n", "migrating", "m", "0-1", "db", "n2", "2-3"]
    [("db", "n", { start := 0, «end» := 1, tag := SlotRangeTag.Migrating "m" }),
     ("db", "n2", { start := 2, «end» := 3, tag := SlotRangeTag.None })]
    233 (by decide) (by decide) (by decide)
